import Mathlib

/-!
Verification of the `sto` tracking-client library (`sto/client.go`).

The Go source is shallowly embedded below: pure computations (validation,
JSON serialization, MD5/base64 signing, URL building) become Lean functions
on `String`/`Nat`; the HTTP transport is a parameter (a stub mapping the
attempt index to the outcome of `doRequest`); the retry loop of `QueryTrace`
is a fuel-indexed recursion that also records a trace of attempt and sleep
events; the lock discipline around the debug flag and transport handle is
embedded as a trace of lock/read/write events.  Machine integers are `Nat`
with explicit `% 2^32` (MD5 words) and `Int` (the Go `int` field
`maxRetries`).
-/

/-! ### Bytes and UTF-8 -/

/-- UTF-8 encoding of one character, as Go produces for `[]byte(string)`. -/
def utf8Char (ch : Char) : List Nat :=
  let n := ch.toNat
  if n < 128 then [n]
  else if n < 2048 then [192 + n / 64, 128 + n % 64]
  else if n < 65536 then [224 + n / 4096, 128 + n / 64 % 64, 128 + n % 64]
  else [240 + n / 262144, 128 + n / 4096 % 64, 128 + n / 64 % 64, 128 + n % 64]

/-- The UTF-8 bytes of a string (Go `[]byte(s)`). -/
def strBytes (s : String) : List Nat :=
  s.data.foldr (fun ch acc => utf8Char ch ++ acc) []

/-! ### MD5 (crypto/md5), on byte lists, words as `Nat` mod `2^32` -/

/-- Rotate a 32-bit word left by `s` bits. -/
def rotl32 (x s : Nat) : Nat :=
  ((x <<< s) % 4294967296) ||| (x >>> (32 - s))

/-- MD5 round constants `K[i] = floor(2^32 * abs(sin(i+1)))`. -/
def md5K : List Nat :=
  [0xd76aa478, 0xe8c7b756, 0x242070db, 0xc1bdceee,
   0xf57c0faf, 0x4787c62a, 0xa8304613, 0xfd469501,
   0x698098d8, 0x8b44f7af, 0xffff5bb1, 0x895cd7be,
   0x6b901122, 0xfd987193, 0xa679438e, 0x49b40821,
   0xf61e2562, 0xc040b340, 0x265e5a51, 0xe9b6c7aa,
   0xd62f105d, 0x02441453, 0xd8a1e681, 0xe7d3fbc8,
   0x21e1cde6, 0xc33707d6, 0xf4d50d87, 0x455a14ed,
   0xa9e3e905, 0xfcefa3f8, 0x676f02d9, 0x8d2a4c8a,
   0xfffa3942, 0x8771f681, 0x6d9d6122, 0xfde5380c,
   0xa4beea44, 0x4bdecfa9, 0xf6bb4b60, 0xbebfbc70,
   0x289b7ec6, 0xeaa127fa, 0xd4ef3085, 0x04881d05,
   0xd9d4d039, 0xe6db99e5, 0x1fa27cf8, 0xc4ac5665,
   0xf4292244, 0x432aff97, 0xab9423a7, 0xfc93a039,
   0x655b59c3, 0x8f0ccc92, 0xffeff47d, 0x85845dd1,
   0x6fa87e4f, 0xfe2ce6e0, 0xa3014314, 0x4e0811a1,
   0xf7537e82, 0xbd3af235, 0x2ad7d2bb, 0xeb86d391]

/-- MD5 per-round left-rotation amounts. -/
def md5S : List Nat :=
  [7, 12, 17, 22, 7, 12, 17, 22, 7, 12, 17, 22, 7, 12, 17, 22,
   5, 9, 14, 20, 5, 9, 14, 20, 5, 9, 14, 20, 5, 9, 14, 20,
   4, 11, 16, 23, 4, 11, 16, 23, 4, 11, 16, 23, 4, 11, 16, 23,
   6, 10, 15, 21, 6, 10, 15, 21, 6, 10, 15, 21, 6, 10, 15, 21]

/-- Little-endian 32-bit word `g` of a 64-byte block. -/
def md5Word (block : List Nat) (g : Nat) : Nat :=
  block.getD (4 * g) 0 + 256 * block.getD (4 * g + 1) 0 +
  65536 * block.getD (4 * g + 2) 0 + 16777216 * block.getD (4 * g + 3) 0

/-- One of the 64 MD5 rounds on state `(a, b, c, d)`. -/
def md5Step (block : List Nat) (st : Nat × Nat × Nat × Nat) (i : Nat) :
    Nat × Nat × Nat × Nat :=
  let (a, b, c, d) := st
  let f :=
    if i < 16 then (b &&& c) ||| ((4294967295 ^^^ b) &&& d)
    else if i < 32 then (d &&& b) ||| ((4294967295 ^^^ d) &&& c)
    else if i < 48 then b ^^^ c ^^^ d
    else c ^^^ (b ||| (4294967295 ^^^ d))
  let g :=
    if i < 16 then i
    else if i < 32 then (5 * i + 1) % 16
    else if i < 48 then (3 * i + 5) % 16
    else (7 * i) % 16
  let tmp := (a + f + md5K.getD i 0 + md5Word block g) % 4294967296
  (d, (b + rotl32 tmp (md5S.getD i 0)) % 4294967296, b, c)

/-- Compress one 64-byte block into the running MD5 state. -/
def md5Block (st : Nat × Nat × Nat × Nat) (block : List Nat) :
    Nat × Nat × Nat × Nat :=
  let (a0, b0, c0, d0) := st
  let (a, b, c, d) := (List.range 64).foldl (md5Step block) st
  ((a0 + a) % 4294967296, (b0 + b) % 4294967296,
   (c0 + c) % 4294967296, (d0 + d) % 4294967296)

/-- Process `n` consecutive 64-byte blocks. -/
def md5Blocks : Nat → Nat × Nat × Nat × Nat → List Nat → Nat × Nat × Nat × Nat
  | 0, st, _ => st
  | n + 1, st, bs => md5Blocks n (md5Block st (bs.take 64)) (bs.drop 64)

/-- Little-endian byte serialization of the low `k` bytes of `n`. -/
def leBytes (k n : Nat) : List Nat :=
  (List.range k).map (fun j => (n >>> (8 * j)) % 256)

/-- MD5 padding: `0x80`, zeros to 56 mod 64, then the 64-bit LE bit length. -/
def md5Pad (msg : List Nat) : List Nat :=
  let len := msg.length
  let zeros := (120 - (len + 1) % 64) % 64
  msg ++ [128] ++ List.replicate zeros 0 ++
    leBytes 8 ((8 * len) % 18446744073709551616)

/-- The 16-byte MD5 digest of a byte string. -/
def md5Bytes (msg : List Nat) : List Nat :=
  let padded := md5Pad msg
  let st := md5Blocks (padded.length / 64)
    (0x67452301, 0xefcdab89, 0x98badcfe, 0x10325476) padded
  leBytes 4 st.1 ++ leBytes 4 st.2.1 ++ leBytes 4 st.2.2.1 ++ leBytes 4 st.2.2.2

/-! ### Standard base64 (encoding/base64 StdEncoding) -/

/-- The standard base64 alphabet. -/
def base64Table : List Char :=
  "ABCDEFGHIJKLMNOPQRSTUVWXYZabcdefghijklmnopqrstuvwxyz0123456789+/".data

/-- Character for a 6-bit group. -/
def b64Char (n : Nat) : Char := base64Table.getD n 'A'

/-- Standard base64 encoding with `=` padding, 3 input bytes per 4 output
characters. -/
def base64Encode : List Nat → String
  | [] => ""
  | [b1] =>
    String.mk [b64Char (b1 / 4), b64Char (b1 % 4 * 16)] ++ "=="
  | [b1, b2] =>
    String.mk [b64Char (b1 / 4), b64Char (b1 % 4 * 16 + b2 / 16),
               b64Char (b2 % 16 * 4)] ++ "="
  | b1 :: b2 :: b3 :: rest =>
    String.mk [b64Char (b1 / 4), b64Char (b1 % 4 * 16 + b2 / 16),
               b64Char (b2 % 16 * 4 + b3 / 64), b64Char (b3 % 64)] ++
      base64Encode rest

/-- The signature of `QueryTrace` (client.go:186-189): base64 of the MD5
digest of the serialized content concatenated with the app secret. -/
def dataDigest (content secret : String) : String :=
  base64Encode (md5Bytes (strBytes (content ++ secret)))

/-! ### URL query encoding (net/url `Values.Encode` / `QueryEscape`) -/

/-- Bytes left unescaped by Go `url.QueryEscape`: alphanumerics and
`-`, `_`, `.`, `~`. -/
def isUnreservedByte (b : Nat) : Bool :=
  (65 ≤ b && b ≤ 90) || (97 ≤ b && b ≤ 122) || (48 ≤ b && b ≤ 57) ||
  b == 45 || b == 95 || b == 46 || b == 126

/-- Uppercase hex digit. -/
def hexUpperDigit (n : Nat) : Char :=
  if n < 10 then Char.ofNat (48 + n) else Char.ofNat (55 + n)

/-- Escape one byte as `url.QueryEscape` does: unreserved bytes pass,
space becomes `+`, everything else `%XX`. -/
def escapeByte (b : Nat) : String :=
  if isUnreservedByte b then String.singleton (Char.ofNat b)
  else if b == 32 then "+"
  else String.mk ['%', hexUpperDigit (b / 16), hexUpperDigit (b % 16)]

/-- Go `url.QueryEscape`, acting on the UTF-8 bytes. -/
def QueryEscape (s : String) : String :=
  (strBytes s).foldr (fun b acc => escapeByte b ++ acc) ""

/-- Insert into a list sorted by the boolean comparator. -/
def insertLe {α : Type} (le : α → α → Bool) (x : α) : List α → List α
  | [] => [x]
  | y :: ys => if le x y then x :: y :: ys else y :: insertLe le x ys

/-- Insertion sort by a boolean comparator (Go `sort.Strings` on the keys;
our keys are distinct ASCII strings, so any stable sort agrees). -/
def sortLe {α : Type} (le : α → α → Bool) : List α → List α
  | [] => []
  | x :: xs => insertLe le x (sortLe le xs)

/-- Byte-wise lexicographic order, as Go `sort.Strings` compares. -/
def bytesLt : List Nat → List Nat → Bool
  | [], [] => false
  | [], _ :: _ => true
  | _ :: _, [] => false
  | a :: as, b :: bs =>
    if a < b then true else if b < a then false else bytesLt as bs

/-- Key order used by `url.Values.Encode` (`sort.Strings` on the keys). -/
def keyLe (a b : String × String) : Bool :=
  !(bytesLt (strBytes b.1) (strBytes a.1))

/-- Join with `&` separators. -/
def joinAmp : List String → String
  | [] => ""
  | [x] => x
  | x :: y :: rest => x ++ "&" ++ joinAmp (y :: rest)

/-- Go `url.Values.Encode`: sort by key, escape keys and values, join with
`=` and `&`. -/
def encodeValues (params : List (String × String)) : String :=
  joinAmp ((sortLe keyLe params).map
    (fun kv => QueryEscape kv.1 ++ "=" ++ QueryEscape kv.2))

/-! ### JSON serialization (encoding/json `Marshal` for the request struct) -/

/-- Lowercase hex digit, as encoding/json uses for `\u00XX` escapes. -/
def hexLowerDigit (n : Nat) : Char :=
  if n < 10 then Char.ofNat (48 + n) else Char.ofNat (87 + n)

/-- JSON escaping of one character as Go encoding/json does by default
(HTML escaping on): quote, backslash, control characters, `<`, `>`, `&`,
U+2028 and U+2029. -/
def jsonEscapeChar (ch : Char) : String :=
  if ch = '"' then "\\\""
  else if ch = '\\' then "\\\\"
  else if ch = '\n' then "\\n"
  else if ch = '\r' then "\\r"
  else if ch = '\t' then "\\t"
  else if ch.toNat < 32 then
    String.mk ['\\', 'u', '0', '0', hexLowerDigit (ch.toNat / 16),
               hexLowerDigit (ch.toNat % 16)]
  else if ch = '<' then "\\u003c"
  else if ch = '>' then "\\u003e"
  else if ch = '&' then "\\u0026"
  else if ch.toNat = 8232 then "\\u2028"
  else if ch.toNat = 8233 then "\\u2029"
  else String.singleton ch

/-- A JSON string literal. -/
def jsonQuote (s : String) : String :=
  "\"" ++ s.data.foldr (fun ch acc => jsonEscapeChar ch ++ acc) "" ++ "\""

/-- Join with `,` separators. -/
def joinComma : List String → String
  | [] => ""
  | [x] => x
  | x :: y :: rest => x ++ "," ++ joinComma (y :: rest)

/-- A JSON array of string literals.  (Go marshals a nil slice as `null`;
`QueryTrace` only marshals validated requests, whose list is non-empty.) -/
def jsonStringArray (xs : List String) : String :=
  "[" ++ joinComma (xs.map jsonQuote) ++ "]"

/-! ### Data model (client.go:104-171) -/

/-- TraceQueryRequest (client.go:105-108): struct fields in declaration
order `order`, `waybillNoList`. -/
structure TraceQueryRequest where
  Order : String
  WaybillNoList : List String
deriving Repr, DecidableEq

/-- JSON serialization of a request, `json.Marshal(req)` (client.go:181):
encoding/json emits the struct fields in declaration order. -/
def jsonEncodeRequest (r : TraceQueryRequest) : String :=
  "\x7b\"order\":" ++ jsonQuote r.Order ++
    ",\"waybillNoList\":" ++ jsonStringArray r.WaybillNoList ++ "\x7d"

/-- Validate (client.go:111-119): `none` when the request is acceptable,
`some errorMessage` otherwise. -/
def TraceQueryRequest.Validate (r : TraceQueryRequest) : Option String :=
  if r.WaybillNoList.length = 0 then
    some "waybillNoList cannot be empty"
  else if r.Order ≠ "" ∧ r.Order ≠ "asc" ∧ r.Order ≠ "desc" then
    some "order must be either \x27asc\x27 or \x27desc\x27"
  else none

/-- TraceInfo (client.go:122-150): one tracking scan, all fields raw
strings. -/
structure TraceInfo where
  WaybillNo : String
  OpTime : String
  OpOrgCode : String
  OpOrgName : String
  OpOrgProvinceName : String
  OpOrgCityName : String
  OpOrgTel : String
  OpEmpCode : String
  OpEmpName : String
  ScanType : String
  Weight : String
  Memo : String
  BizEmpCode : String
  BizEmpName : String
  BizEmpPhone : String
  BizEmpTel : String
  NextOrgName : String
  NextOrgCode : String
  IssueName : String
  SignoffPeople : String
  ContainerNo : String
  OrderOrgCode : String
  OrderOrgName : String
  TransportTaskNo : String
  CarNo : String
  OpOrgTypeCode : String
  PartnerName : String
deriving Repr, DecidableEq

/-- TraceQueryResponse (client.go:153-161); `Data` is the waybill-to-events
mapping. -/
structure TraceQueryResponse where
  Success : String
  ErrorCode : String
  ErrorMsg : String
  NeedRetry : String
  RequestId : String
  ExpInfo : String
  Data : List (String × List TraceInfo)
deriving Repr, DecidableEq

/-- IsSuccess (client.go:164-166). -/
def TraceQueryResponse.IsSuccess (r : TraceQueryResponse) : Bool :=
  r.Success == "true"

/-- ShouldRetry (client.go:169-171). -/
def TraceQueryResponse.ShouldRetry (r : TraceQueryResponse) : Bool :=
  r.NeedRetry == "true"

/-! ### Client construction (client.go:15-102) -/

/-- BaseURL (client.go:17). -/
def BaseURL : String := "https://cloudinter-linkgateway.sto.cn/gateway/link.do"

/-- DefaultTimeout (client.go:20), in nanoseconds (`30 * time.Second`). -/
def DefaultTimeout : Int := 30000000000

/-- DefaultMaxRetries (client.go:23). -/
def DefaultMaxRetries : Int := 3

/-- Client (client.go:27-38).  The `http.Client` handle and the mutex are
runtime objects; the transport is a parameter of `QueryTrace` below and the
lock discipline is embedded separately as an event trace. -/
structure Client where
  AppKey : String
  AppSecret : String
  FromCode : String
  Debug : Bool
  timeout : Int
  maxRetries : Int
deriving Repr, DecidableEq

/-- ClientOption (client.go:41). -/
def ClientOption : Type := Client → Client

/-- WithTimeout (client.go:44-48). -/
def WithTimeout (t : Int) : ClientOption := fun c => { c with timeout := t }

/-- WithMaxRetries (client.go:51-55). -/
def WithMaxRetries (n : Int) : ClientOption :=
  fun c => { c with maxRetries := n }

/-- NewClient (client.go:65-88): defaults then the options in order.  (The
construction of the default `http.Client` has no observable effect in this
model.) -/
def NewClient (appKey appSecret fromCode : String)
    (opts : List ClientOption) : Client :=
  opts.foldl (fun c opt => opt c)
    { AppKey := appKey, AppSecret := appSecret, FromCode := fromCode,
      Debug := false, timeout := DefaultTimeout,
      maxRetries := DefaultMaxRetries }

/-! ### Request building (client.go:180-202, 235) -/

/-- The request `QueryTrace` prepares before its retry loop: HTTP method
(client.go:235), full URL (client.go:202), query parameters in insertion
order (client.go:192-199), serialized content and signature
(client.go:181-189). -/
structure BuiltRequest where
  method : String
  url : String
  params : List (String × String)
  content : String
  digest : String
deriving Repr, DecidableEq

/-- Build the signed GET request of `QueryTrace` (client.go:180-202). -/
def buildRequest (c : Client) (req : TraceQueryRequest) : BuiltRequest :=
  let content := jsonEncodeRequest req
  let digest := dataDigest content c.AppSecret
  let params : List (String × String) :=
    [("content", content), ("data_digest", digest),
     ("from_appkey", c.AppKey), ("from_code", c.FromCode),
     ("to_appkey", "sto_trace_query"), ("to_code", "sto_trace_query"),
     ("api_name", "STO_TRACE_QUERY_COMMON")]
  { method := "GET", url := BaseURL ++ "?" ++ encodeValues params,
    params := params, content := content, digest := digest }

/-! ### One HTTP attempt, doRequest (client.go:227-276)

The network and the JSON decoder are the environment: an attempt's exchange
either fails to connect, fails while reading the body, or yields a status
code and a body; `json.Unmarshal` is a parameter `decode`. -/

/-- The outcome of the HTTP exchange as seen by `doRequest`. -/
inductive HTTPOutcome where
  | connFail (msg : String)
  | readFail (msg : String)
  | response (status : Nat) (body : String)
deriving Repr, DecidableEq

/-- doRequest (client.go:227-276): the error strings are the exact
`fmt.Errorf` formats of the source; `decode` stands for `json.Unmarshal`
into `TraceQueryResponse`, returning the unmarshal error message on
failure. -/
def doRequest (outcome : HTTPOutcome)
    (decode : String → Except String TraceQueryResponse) :
    Except String TraceQueryResponse :=
  match outcome with
  | .connFail m => .error ("request failed: " ++ m)
  | .readFail m => .error ("read response failed: " ++ m)
  | .response status body =>
    if status ≠ 200 then
      .error ("API returned non-200 status code: " ++ toString status ++
        ", body: " ++ body)
    else
      match decode body with
      | .error e =>
        .error ("unmarshal response failed: " ++ e ++ ", body: " ++ body)
      | .ok r => .ok r

/-! ### The retry loop of QueryTrace (client.go:204-224)

A transport stub maps the attempt index to the outcome of that attempt's
`doRequest` call.  Besides the final `(resp, lastErr)` pair the model
records the externally visible events: each attempt (with the request data
it sends) and each `time.Sleep`. -/

/-- An observable event of one `QueryTrace` call: an attempt with loop
index `i` sending (url, content, digest), or a sleep of a number of
seconds. -/
inductive QEvent where
  | attempt (i : Nat) (url content digest : String)
  | sleep (seconds : Nat)
deriving Repr, DecidableEq

/-- Result of a `QueryTrace` call: the returned response and error
(client.go:223) and the recorded event trace. -/
structure QueryResult where
  resp : Option TraceQueryResponse
  err : Option String
  events : List QEvent
deriving Repr, DecidableEq

/-- The step taken when iteration `i` did not break out of the loop:
prepend this iteration's attempt event, and the sleep of `i + 1` seconds
exactly when `i < maxRetries` (client.go:218-220). -/
def loopStep (tail : QueryResult) (i : Nat) (mr : Int)
    (u ct dg : String) : QueryResult :=
  if (i : Int) < mr then
    ⟨tail.resp, tail.err, .attempt i u ct dg :: .sleep (i + 1) :: tail.events⟩
  else
    ⟨tail.resp, tail.err, .attempt i u ct dg :: tail.events⟩

/-- The retry loop `for i := 0; i <= c.maxRetries; i++` (client.go:208-221)
starting at index `i` with `fuel` iterations left (`fuel` is
`(maxRetries + 1 - i).toNat` at every call).  `r0`/`e0` are the values of
`resp`/`lastErr` before the iteration; when the loop condition fails they
are returned unchanged. -/
def loopFrom (stub : Nat → Except String TraceQueryResponse) (mr : Int)
    (u ct dg : String) :
    Nat → Nat → Option TraceQueryResponse → Option String → QueryResult
  | _, 0, r0, e0 => ⟨r0, e0, []⟩
  | i, fuel + 1, _, _ =>
    match stub i with
    | .ok r =>
      if r.ShouldRetry then
        loopStep (loopFrom stub mr u ct dg (i + 1) fuel (some r) none)
          i mr u ct dg
      else ⟨some r, none, [.attempt i u ct dg]⟩
    | .error e =>
      loopStep (loopFrom stub mr u ct dg (i + 1) fuel none (some e))
        i mr u ct dg

/-- QueryTrace (client.go:174-224): validate, serialize, sign, build the
URL, then run the retry loop against the transport stub. -/
def Client.QueryTrace (c : Client)
    (stub : Nat → Except String TraceQueryResponse)
    (req : TraceQueryRequest) : QueryResult :=
  match req.Validate with
  | some msg => ⟨none, some ("invalid request: " ++ msg), []⟩
  | none =>
    let b := buildRequest c req
    loopFrom stub c.maxRetries b.url b.content b.digest 0
      ((c.maxRetries + 1).toNat) none none

/-- Number of attempt events in a trace. -/
def countAttempts (es : List QEvent) : Nat :=
  es.countP (fun e => match e with
    | .attempt _ _ _ _ => true
    | .sleep _ => false)

/-- An attempt outcome after which the Go loop keeps going: either the
exchange failed, or the decoded response carries the retry hint
(client.go:214). -/
def retryable : Except String TraceQueryResponse → Prop
  | .error _ => True
  | .ok r => r.ShouldRetry = true

/-! ### Lock discipline around Debug and the transport (client.go:31-34,
91-102, 209, 228, 244-247)

Each access to the shared mutable fields, and each lock operation, in
source order. -/

/-- A lock-relevant event: taking or releasing `mu` in read or write mode,
or an access to one of the fields it is meant to protect. -/
inductive LockEvent where
  | lockR
  | unlockR
  | lockW
  | unlockW
  | readDebug
  | readTransport
  | writeDebug (v : Bool)
deriving Repr, DecidableEq

/-- EnableDebug (client.go:91-95). -/
def EnableDebugEvents : List LockEvent := [.lockW, .writeDebug true, .unlockW]

/-- DisableDebug (client.go:98-102). -/
def DisableDebugEvents : List LockEvent :=
  [.lockW, .writeDebug false, .unlockW]

/-- The shared-state accesses of one `doRequest` call in source order: the
read of `c.Debug` at client.go:228, then the `RLock`-guarded reads of
`c.httpClient` and `c.Debug` at client.go:244-247. -/
def doRequestEvents : List LockEvent :=
  [.readDebug, .lockR, .readTransport, .readDebug, .unlockR]

/-- The shared-state accesses of loop iteration `i` of `QueryTrace`: for
`i > 0` the read of `c.Debug` in `i > 0 && c.Debug` at client.go:209
(short-circuited away when `i = 0`), then the accesses of `doRequest`. -/
def queryTraceAttemptEvents (i : Nat) : List LockEvent :=
  (if i = 0 then [] else [.readDebug]) ++ doRequestEvents

/-- Check that every access in the trace happens while the lock is held
(reads under either mode, writes only under the write lock), tracking the
read- and write-hold depths. -/
def accessesLocked : List LockEvent → Nat → Nat → Bool
  | [], _, _ => true
  | .lockR :: es, r, w => accessesLocked es (r + 1) w
  | .unlockR :: es, r, w => accessesLocked es (r - 1) w
  | .lockW :: es, r, w => accessesLocked es r (w + 1)
  | .unlockW :: es, r, w => accessesLocked es r (w - 1)
  | .readDebug :: es, r, w => decide (0 < r + w) && accessesLocked es r w
  | .readTransport :: es, r, w => decide (0 < r + w) && accessesLocked es r w
  | .writeDebug _ :: es, r, w => decide (0 < w) && accessesLocked es r w

/-! ### Everything the built request must satisfy for claim C5 -/

/-- The request shape claimed by the spec: a GET against the fixed
endpoint, the query string the form-encoding of exactly the seven
parameters, the serialized JSON content with field order `order` then
`waybillNoList`, and the fixed `to_appkey`/`to_code`/`api_name` values. -/
def BuiltRequestSpec (c : Client) (req : TraceQueryRequest) : Prop :=
  (buildRequest c req).method = "GET" ∧
  (buildRequest c req).url =
    BaseURL ++ "?" ++ encodeValues (buildRequest c req).params ∧
  (buildRequest c req).params.map Prod.fst =
    ["content", "data_digest", "from_appkey", "from_code",
     "to_appkey", "to_code", "api_name"] ∧
  (buildRequest c req).params.lookup "content" =
    some (jsonEncodeRequest req) ∧
  (buildRequest c req).params.lookup "data_digest" =
    some (dataDigest (jsonEncodeRequest req) c.AppSecret) ∧
  (buildRequest c req).params.lookup "from_appkey" = some c.AppKey ∧
  (buildRequest c req).params.lookup "from_code" = some c.FromCode ∧
  (buildRequest c req).params.lookup "to_appkey" = some "sto_trace_query" ∧
  (buildRequest c req).params.lookup "to_code" = some "sto_trace_query" ∧
  (buildRequest c req).params.lookup "api_name" =
    some "STO_TRACE_QUERY_COMMON" ∧
  jsonEncodeRequest req =
    "\x7b\"order\":" ++ jsonQuote req.Order ++ ",\"waybillNoList\":" ++
      jsonStringArray req.WaybillNoList ++ "\x7d" ∧
  (sortLe keyLe (buildRequest c req).params).map Prod.fst =
    ["api_name", "content", "data_digest", "from_appkey", "from_code",
     "to_appkey", "to_code"]

/-! ### Concrete inputs used by the witnesses -/

/-- A valid concrete request. -/
def reqX : TraceQueryRequest := ⟨"asc", ["773123456789"]⟩

/-- A client with the default configuration. -/
def clientX : Client := NewClient "ak" "sk" "fc" []

/-- A decoded response that carries the retry hint. -/
def retryResp : TraceQueryResponse := ⟨"false", "009", "busy", "true", "r2", "", []⟩

/-- A decoded response that succeeds and carries no retry hint. -/
def cleanResp : TraceQueryResponse :=
  ⟨"true", "", "", "false", "r3", "", [("773123456789", [])]⟩

/-- A transport stub whose every exchange decodes to a retry-hinted
response. -/
def stubRetry : Nat → Except String TraceQueryResponse :=
  fun _ => .ok retryResp

/-- A transport stub that is retry-hinted on attempt 1 (loop index 0) and
clean on every later attempt. -/
def stubOnce : Nat → Except String TraceQueryResponse :=
  fun i => if i = 0 then .ok retryResp else .ok cleanResp

/-- A decoder that always fails, with message `x`. -/
def decodeFail : String → Except String TraceQueryResponse :=
  fun _ => .error "x"

/-- A decoder that always succeeds with `cleanResp`. -/
def decodeOK : String → Except String TraceQueryResponse :=
  fun _ => .ok cleanResp

/-! ### Sanity checks of the embedded primitives against published test
vectors -/

/-- MD5 of the empty message (RFC 1321 test suite). -/
theorem md5_empty_vector :
    md5Bytes (strBytes "") =
      [0xd4, 0x1d, 0x8c, 0xd9, 0x8f, 0x00, 0xb2, 0x04,
       0xe9, 0x80, 0x09, 0x98, 0xec, 0xf8, 0x42, 0x7e] := by decide

/-- MD5 of `"abc"` (RFC 1321 test suite). -/
theorem md5_abc_vector :
    md5Bytes (strBytes "abc") =
      [0x90, 0x01, 0x50, 0x98, 0x3c, 0xd2, 0x4f, 0xb0,
       0xd6, 0x96, 0x3f, 0x7d, 0x28, 0xe1, 0x7f, 0x72] := by decide

/-- The signature of empty content with empty secret: base64 of the MD5 of
the empty string. -/
theorem dataDigest_empty :
    dataDigest "" "" = "1B2M2Y8AsgTpgAmY7PhCfg==" := by decide

/-! ### Helper lemmas about the retry loop -/

/-- With at least one iteration of fuel left, the first recorded event is
this iteration's attempt. -/
theorem loopFrom_head (stub : Nat → Except String TraceQueryResponse)
    (mr : Int) (u ct dg : String) (i fuel : Nat)
    (r0 : Option TraceQueryResponse) (e0 : Option String) (h : 0 < fuel) :
    (loopFrom stub mr u ct dg i fuel r0 e0).events[0]? =
      some (.attempt i u ct dg) := by
  match fuel, h with
  | fuel + 1, _ =>
    simp only [loopFrom]
    cases hst : stub i with
    | ok r =>
      by_cases hr : r.ShouldRetry
      · simp only [hr, if_true, loopStep]
        split <;> simp
      · simp [hr]
    | error e =>
      simp only [loopStep]
      split <;> simp

/-- Every attempt event recorded by the loop carries exactly the url,
content and digest the loop was given. -/
theorem loopFrom_attempt_mem (stub : Nat → Except String TraceQueryResponse)
    (mr : Int) (u ct dg : String) :
    ∀ (fuel i : Nat) (r0 : Option TraceQueryResponse) (e0 : Option String)
      (e : QEvent), e ∈ (loopFrom stub mr u ct dg i fuel r0 e0).events →
      ∀ (k : Nat) (u1 c1 d1 : String), e = .attempt k u1 c1 d1 →
      u1 = u ∧ c1 = ct ∧ d1 = dg := by
  intro fuel
  induction fuel with
  | zero =>
    intro i r0 e0 e he
    simp [loopFrom] at he
  | succ fuel ih =>
    intro i r0 e0 e he k u1 c1 d1 heq
    subst heq
    simp only [loopFrom] at he
    cases hst : stub i with
    | ok r =>
      simp only [hst] at he
      by_cases hr : r.ShouldRetry
      · simp only [hr, if_true, loopStep] at he
        split at he
        · simp only [List.mem_cons] at he
          rcases he with h1 | h1 | h1
          · injection h1 with h2 h3 h4 h5; exact ⟨h3, h4, h5⟩
          · simp at h1
          · exact ih _ _ _ _ h1 k u1 c1 d1 rfl
        · simp only [List.mem_cons] at he
          rcases he with h1 | h1
          · injection h1 with h2 h3 h4 h5; exact ⟨h3, h4, h5⟩
          · exact ih _ _ _ _ h1 k u1 c1 d1 rfl
      · simp only [hr, Bool.false_eq_true, if_false, List.mem_cons,
          List.not_mem_nil, or_false] at he
        injection he with h2 h3 h4 h5; exact ⟨h3, h4, h5⟩
    | error e2 =>
      simp only [hst, loopStep] at he
      split at he
      · simp only [List.mem_cons] at he
        rcases he with h1 | h1 | h1
        · injection h1 with h2 h3 h4 h5; exact ⟨h3, h4, h5⟩
        · simp at h1
        · exact ih _ _ _ _ h1 k u1 c1 d1 rfl
      · simp only [List.mem_cons] at he
        rcases he with h1 | h1
        · injection h1 with h2 h3 h4 h5; exact ⟨h3, h4, h5⟩
        · exact ih _ _ _ _ h1 k u1 c1 d1 rfl

/-- Characterization of a passing `Validate` (client.go:111-119). -/
theorem Validate_none_iff (req : TraceQueryRequest) :
    req.Validate = none ↔
      (req.WaybillNoList ≠ [] ∧
        (req.Order = "" ∨ req.Order = "asc" ∨ req.Order = "desc")) := by
  unfold TraceQueryRequest.Validate
  split
  · next hlen =>
    simp only [List.length_eq_zero] at hlen
    simp [hlen]
  · next hlen =>
    simp only [List.length_eq_zero] at hlen
    split
    · next hord => simp [hlen, hord]
    · next hord =>
      simp only [not_and, not_not, ne_eq] at hord
      simp [hlen]
      by_cases h0 : req.Order = ""
      · tauto
      · by_cases h1 : req.Order = "asc"
        · tauto
        · right; right; exact hord h0 h1

/-! ### Equation lemmas for the retry loop -/

/-- `loopStep` when a sleep happens (`i < maxRetries`). -/
theorem loopStep_lt (t : QueryResult) (i : Nat) (mr : Int) (u ct dg : String)
    (h : (i : Int) < mr) :
    loopStep t i mr u ct dg =
      ⟨t.resp, t.err, .attempt i u ct dg :: .sleep (i + 1) :: t.events⟩ := by
  unfold loopStep; rw [if_pos h]

/-- `loopStep` on the last permitted iteration (no sleep). -/
theorem loopStep_ge (t : QueryResult) (i : Nat) (mr : Int) (u ct dg : String)
    (h : ¬ (i : Int) < mr) :
    loopStep t i mr u ct dg =
      ⟨t.resp, t.err, .attempt i u ct dg :: t.events⟩ := by
  unfold loopStep; rw [if_neg h]

/-- One loop iteration that obtains a clean (non-retry-hinted) response
breaks out of the loop. -/
theorem loopFrom_succ_stop (stub : Nat → Except String TraceQueryResponse)
    (mr : Int) (u ct dg : String) (i fuel : Nat)
    (r0 : Option TraceQueryResponse) (e0 : Option String)
    (r : TraceQueryResponse) (h1 : stub i = Except.ok r)
    (h2 : r.ShouldRetry = false) :
    loopFrom stub mr u ct dg i (fuel + 1) r0 e0 =
      ⟨some r, none, [.attempt i u ct dg]⟩ := by
  simp [loopFrom, h1, h2]

/-- One loop iteration that obtains a retry-hinted response continues. -/
theorem loopFrom_succ_retry (stub : Nat → Except String TraceQueryResponse)
    (mr : Int) (u ct dg : String) (i fuel : Nat)
    (r0 : Option TraceQueryResponse) (e0 : Option String)
    (r : TraceQueryResponse) (h1 : stub i = Except.ok r)
    (h2 : r.ShouldRetry = true) :
    loopFrom stub mr u ct dg i (fuel + 1) r0 e0 =
      loopStep (loopFrom stub mr u ct dg (i + 1) fuel (some r) none)
        i mr u ct dg := by
  simp [loopFrom, h1, h2]

/-- One loop iteration whose attempt fails continues. -/
theorem loopFrom_succ_error (stub : Nat → Except String TraceQueryResponse)
    (mr : Int) (u ct dg : String) (i fuel : Nat)
    (r0 : Option TraceQueryResponse) (e0 : Option String)
    (e : String) (h1 : stub i = Except.error e) :
    loopFrom stub mr u ct dg i (fuel + 1) r0 e0 =
      loopStep (loopFrom stub mr u ct dg (i + 1) fuel none (some e))
        i mr u ct dg := by
  simp [loopFrom, h1]

/-! ### C3: validation failures, and only they, stop `QueryTrace` before
any attempt -/

/-- C3: `QueryTrace` fails with a validation error having made no attempt
and no sleep (an empty event trace) exactly when the waybill list is empty
or `order` is set to a value outside `""`, `"asc"`, `"desc"`
(client.go:111-119, 174-178). -/
theorem QueryTrace_validation_iff (c : Client)
    (stub : Nat → Except String TraceQueryResponse)
    (req : TraceQueryRequest) :
    ((∃ m, (c.QueryTrace stub req).err = some ("invalid request: " ++ m)) ∧
      (c.QueryTrace stub req).events = [] ∧
      (c.QueryTrace stub req).resp = none) ↔
    (req.WaybillNoList = [] ∨
      (req.Order ≠ "" ∧ req.Order ≠ "asc" ∧ req.Order ≠ "desc")) := by
  have hiff := Validate_none_iff req
  cases hv : req.Validate with
  | some msg =>
    have hbad : ¬(req.WaybillNoList ≠ [] ∧
        (req.Order = "" ∨ req.Order = "asc" ∨ req.Order = "desc")) := by
      intro hx
      rw [← hiff] at hx
      rw [hv] at hx
      cases hx
    push_neg at hbad
    simp only [Client.QueryTrace, hv]
    constructor
    · intro _
      by_cases hw : req.WaybillNoList = []
      · exact Or.inl hw
      · exact Or.inr (hbad hw)
    · intro _
      refine ⟨⟨msg, rfl⟩, ?_, ?_⟩ <;> trivial
  | none =>
    have hok := hiff.mp hv
    simp only [Client.QueryTrace, hv]
    constructor
    · rintro ⟨⟨m, herr⟩, hev, -⟩
      by_cases hmr : 0 ≤ c.maxRetries
      · have hfuel : 0 < (c.maxRetries + 1).toNat := by omega
        have hhead := loopFrom_head stub c.maxRetries
          (buildRequest c req).url (buildRequest c req).content
          (buildRequest c req).digest 0 ((c.maxRetries + 1).toNat)
          none none hfuel
        rw [hev] at hhead
        simp at hhead
      · have hfuel : (c.maxRetries + 1).toNat = 0 := by omega
        rw [hfuel] at herr
        simp [loopFrom] at herr
    · intro hrhs
      rcases hrhs with h | h
      · exact absurd h hok.1
      · rcases hok.2 with h0 | h0 | h0
        · exact absurd h0 h.1
        · exact absurd h0 h.2.1
        · exact absurd h0 h.2.2

/-! ### C5: the request `QueryTrace` builds -/

/-- C5: for every client and valid request, the built request is a GET on
the fixed endpoint, with exactly the seven documented query parameters,
URL-encoded, and JSON content with field order `order` then
`waybillNoList` (client.go:180-202, 235). -/
theorem buildRequest_spec (c : Client) (req : TraceQueryRequest)
    (_hv : req.Validate = none) : BuiltRequestSpec c req := by
  unfold BuiltRequestSpec
  refine ⟨rfl, rfl, ?_, ?_, ?_, ?_, ?_, ?_, ?_, ?_, rfl, ?_⟩ <;> rfl

/-- Witness for C5 at a concrete client and request. -/
theorem buildRequest_spec_witness :
    reqX.Validate = none ∧ BuiltRequestSpec clientX reqX :=
  ⟨rfl, buildRequest_spec clientX reqX rfl⟩

/-! ### C6: a negative `maxRetries` silently yields no attempt at all -/

/-- C6: with `WithMaxRetries m` for negative `m`, the loop
`for i := 0; i <= c.maxRetries` never runs, so a valid request returns a
nil response together with a nil error and no attempt and no sleep happens
(client.go:51-55, 204-223). -/
theorem QueryTrace_negative_maxRetries (appKey appSecret fromCode : String)
    (m : Int) (stub : Nat → Except String TraceQueryResponse)
    (req : TraceQueryRequest) (hm : m < 0) (hv : req.Validate = none) :
    (NewClient appKey appSecret fromCode [WithMaxRetries m]).QueryTrace
      stub req = ⟨none, none, []⟩ := by
  have h1 : (NewClient appKey appSecret fromCode
      [WithMaxRetries m]).maxRetries = m := rfl
  simp only [Client.QueryTrace, hv, h1]
  rw [Int.toNat_of_nonpos (by omega : m + 1 ≤ 0)]
  rfl

/-- Witness for C6 with `maxRetries = -1`. -/
theorem QueryTrace_negative_maxRetries_witness :
    (-1 : Int) < 0 ∧ reqX.Validate = none ∧
      (NewClient "ak" "sk" "fc" [WithMaxRetries (-1)]).QueryTrace
        (fun _ => Except.error "unreachable") reqX = ⟨none, none, []⟩ :=
  ⟨by decide, rfl,
   QueryTrace_negative_maxRetries "ak" "sk" "fc" (-1)
     (fun _ => Except.error "unreachable") reqX (by decide) rfl⟩

/-! ### C7: the error taxonomy of one attempt -/

/-- C7: one attempt returns the transport error when the connection fails,
the status error carrying the status code and raw body when the status is
not 200, the decode error when the 200 body does not decode, and the
decoded response otherwise (client.go:249-275). -/
theorem doRequest_taxonomy
    (decode : String → Except String TraceQueryResponse)
    (m : String) (status : Nat) (body : String) :
    doRequest (.connFail m) decode = .error ("request failed: " ++ m) ∧
    (status ≠ 200 → doRequest (.response status body) decode =
      .error ("API returned non-200 status code: " ++ toString status ++
        ", body: " ++ body)) ∧
    (∀ e, decode body = .error e →
      doRequest (.response 200 body) decode =
        .error ("unmarshal response failed: " ++ e ++ ", body: " ++ body)) ∧
    (∀ r, decode body = .ok r →
      doRequest (.response 200 body) decode = .ok r) := by
  refine ⟨rfl, ?_, ?_, ?_⟩
  · intro h
    simp [doRequest, h]
  · intro e h
    simp [doRequest, h]
  · intro r h
    simp [doRequest, h]

/-- Witness for C7: all four attempt outcomes at concrete inputs. -/
theorem doRequest_taxonomy_witness :
    doRequest (.connFail "dial tcp: timeout") decodeFail =
      .error "request failed: dial tcp: timeout" ∧
    doRequest (.response 502 "bad gateway") decodeFail =
      .error "API returned non-200 status code: 502, body: bad gateway" ∧
    doRequest (.response 200 "not json") decodeFail =
      .error "unmarshal response failed: x, body: not json" ∧
    doRequest (.response 200 "\x7b\x7d") decodeOK = .ok cleanResp :=
  ⟨(doRequest_taxonomy decodeFail "dial tcp: timeout" 502 "bad gateway").1,
   (doRequest_taxonomy decodeFail "dial tcp: timeout" 502
     "bad gateway").2.1 (by decide),
   (doRequest_taxonomy decodeFail "x" 200 "not json").2.2.1 "x" rfl,
   (doRequest_taxonomy decodeOK "x" 200 "\x7b\x7d").2.2.2 cleanResp rfl⟩

/-! ### C10: the lock discipline around the debug flag is broken -/

/-- C10 is violated by the code: the `c.Debug` reads at client.go:209 and
client.go:228 happen outside any `mu` section, so a `QueryTrace` attempt
trace is not fully lock-guarded, while the `EnableDebug`/`DisableDebug`
writes (client.go:91-102) and the transport read (client.go:244-247) are
guarded. -/
theorem QueryTrace_debug_read_unguarded :
    accessesLocked (queryTraceAttemptEvents 1) 0 0 = false ∧
    accessesLocked (queryTraceAttemptEvents 0) 0 0 = false ∧
    accessesLocked EnableDebugEvents 0 0 = true ∧
    accessesLocked DisableDebugEvents 0 0 = true ∧
    accessesLocked [.lockR, .readTransport, .readDebug, .unlockR] 0 0 =
      true := by
  decide

/-! ### Counting attempts and indexing traces -/

/-- Prepending an attempt adds one to the attempt count. -/
theorem countAttempts_cons_attempt (i : Nat) (u ct dg : String)
    (es : List QEvent) :
    countAttempts (.attempt i u ct dg :: es) = countAttempts es + 1 := by
  simp [countAttempts, List.countP_cons]

/-- Prepending a sleep leaves the attempt count unchanged. -/
theorem countAttempts_cons_sleep (s : Nat) (es : List QEvent) :
    countAttempts (.sleep s :: es) = countAttempts es := by
  simp [countAttempts, List.countP_cons]

/-- Indexing two positions past a double cons. -/
theorem getElem?_cons_two {α : Type} (a b : α) (l : List α) (n : Nat) :
    (a :: b :: l)[n + 2]? = l[n]? := by
  rw [show n + 2 = n + 1 + 1 from rfl, List.getElem?_cons_succ,
    List.getElem?_cons_succ]

/-! ### C1: retry exhaustion when every attempt asks for a retry -/

/-- When every attempt decodes to a retry-hinted response, the loop runs
through all its fuel, ends with the last response and no error, and makes
one attempt per unit of fuel. -/
theorem loopFrom_all_retry (stub : Nat → Except String TraceQueryResponse)
    (f : Nat → TraceQueryResponse) (mr : Int) (u ct dg : String)
    (hstub : ∀ j, stub j = Except.ok (f j))
    (hret : ∀ j, (f j).ShouldRetry = true) :
    ∀ (fuel i : Nat) (r0 : Option TraceQueryResponse) (e0 : Option String),
      fuel = (mr + 1 - (i : Int)).toNat → 1 ≤ fuel →
      (loopFrom stub mr u ct dg i fuel r0 e0).resp =
        some (f (i + fuel - 1)) ∧
      (loopFrom stub mr u ct dg i fuel r0 e0).err = none ∧
      countAttempts (loopFrom stub mr u ct dg i fuel r0 e0).events = fuel := by
  intro fuel
  induction fuel with
  | zero => intro i r0 e0 _ h1; omega
  | succ fuel ih =>
    intro i r0 e0 hinv _
    rw [loopFrom_succ_retry stub mr u ct dg i fuel r0 e0 (f i) (hstub i)
      (hret i)]
    by_cases hlt : (i : Int) < mr
    · have h1 : 1 ≤ fuel := by omega
      have h2 : fuel = (mr + 1 - ((i + 1 : Int))).toNat := by omega
      have htail := ih (i + 1) (some (f i)) none h2 h1
      rw [loopStep_lt _ _ _ _ _ _ hlt]
      dsimp only
      have h3 : i + 1 + fuel - 1 = i + (fuel + 1) - 1 := by omega
      refine ⟨?_, htail.2.1, ?_⟩
      · rw [htail.1, h3]
      · rw [countAttempts_cons_attempt, countAttempts_cons_sleep,
          htail.2.2]
    · have hf0 : fuel = 0 := by omega
      subst hf0
      rw [loopStep_ge _ _ _ _ _ _ hlt]
      dsimp only
      refine ⟨?_, ?_, ?_⟩ <;> simp [loopFrom, countAttempts]

/-- C1: with `maxRetries = n` and a transport stub whose every exchange
decodes to a retry-hinted response, `QueryTrace` makes exactly `n + 1`
attempts and then returns the last attempt's response with a nil error
(client.go:208-223). -/
theorem QueryTrace_retry_bound (c : Client)
    (stub : Nat → Except String TraceQueryResponse)
    (f : Nat → TraceQueryResponse) (req : TraceQueryRequest) (n : Nat)
    (hmr : c.maxRetries = (n : Int)) (hv : req.Validate = none)
    (hstub : ∀ i, stub i = Except.ok (f i))
    (hret : ∀ i, (f i).ShouldRetry = true) :
    countAttempts (c.QueryTrace stub req).events = n + 1 ∧
    (c.QueryTrace stub req).resp = some (f n) ∧
    (c.QueryTrace stub req).err = none := by
  simp only [Client.QueryTrace, hv]
  have h := loopFrom_all_retry stub f c.maxRetries (buildRequest c req).url
    (buildRequest c req).content (buildRequest c req).digest hstub hret
    ((c.maxRetries + 1).toNat) 0 none none (by omega) (by omega)
  have htn : (c.maxRetries + 1).toNat = n + 1 := by omega
  rw [htn] at h ⊢
  have hidx : 0 + (n + 1) - 1 = n := by omega
  rw [hidx] at h
  exact ⟨h.2.2, h.1, h.2.1⟩

/-- Witness for C1 with `maxRetries = 2` and a constantly retry-hinted
stub: three attempts, last response, nil error. -/
theorem QueryTrace_retry_bound_witness :
    countAttempts ((NewClient "ak" "sk" "fc"
      [WithMaxRetries 2]).QueryTrace stubRetry reqX).events = 3 ∧
    ((NewClient "ak" "sk" "fc" [WithMaxRetries 2]).QueryTrace stubRetry
      reqX).resp = some retryResp ∧
    ((NewClient "ak" "sk" "fc" [WithMaxRetries 2]).QueryTrace stubRetry
      reqX).err = none :=
  QueryTrace_retry_bound (NewClient "ak" "sk" "fc" [WithMaxRetries 2])
    stubRetry (fun _ => retryResp) reqX 2 (by decide) rfl (fun _ => rfl)
    (fun _ => rfl)

/-! ### C2: the loop stops at the first clean response -/

/-- When every attempt before index `k` is retryable and attempt `k`
(within the retry budget) decodes to a clean response, the loop returns
that response with no error after exactly the attempts `i..k`. -/
theorem loopFrom_stop (stub : Nat → Except String TraceQueryResponse)
    (mr : Int) (u ct dg : String) (k : Nat) (r : TraceQueryResponse)
    (hstop : stub k = Except.ok r) (hnr : r.ShouldRetry = false)
    (hkmr : (k : Int) ≤ mr) :
    ∀ (fuel i : Nat) (r0 : Option TraceQueryResponse) (e0 : Option String),
      fuel = (mr + 1 - (i : Int)).toNat → i ≤ k →
      (∀ j, i ≤ j → j < k → retryable (stub j)) →
      (loopFrom stub mr u ct dg i fuel r0 e0).resp = some r ∧
      (loopFrom stub mr u ct dg i fuel r0 e0).err = none ∧
      countAttempts (loopFrom stub mr u ct dg i fuel r0 e0).events =
        k - i + 1 := by
  intro fuel
  induction fuel with
  | zero => intro i r0 e0 hinv hik _; omega
  | succ fuel ih =>
    intro i r0 e0 hinv hik hbefore
    by_cases hik2 : i = k
    · subst hik2
      rw [loopFrom_succ_stop stub mr u ct dg i fuel r0 e0 r hstop hnr]
      refine ⟨rfl, rfl, ?_⟩
      simp [countAttempts]
    · have hlt : i < k := by omega
      have hltmr : (i : Int) < mr := by omega
      have hretry := hbefore i (Nat.le_refl i) hlt
      have htail := ih (i + 1) none none (by omega) (by omega)
        (fun j hj1 hj2 => hbefore j (by omega) hj2)
      cases hst : stub i with
      | ok r2 =>
        rw [hst] at hretry
        have hr2 : r2.ShouldRetry = true := hretry
        rw [loopFrom_succ_retry stub mr u ct dg i fuel r0 e0 r2 hst hr2,
          loopStep_lt _ _ _ _ _ _ hltmr]
        dsimp only
        have htail2 := ih (i + 1) (some r2) none (by omega) (by omega)
          (fun j hj1 hj2 => hbefore j (by omega) hj2)
        refine ⟨htail2.1, htail2.2.1, ?_⟩
        rw [countAttempts_cons_attempt, countAttempts_cons_sleep,
          htail2.2.2]
        omega
      | error e2 =>
        rw [loopFrom_succ_error stub mr u ct dg i fuel r0 e0 e2 hst,
          loopStep_lt _ _ _ _ _ _ hltmr]
        dsimp only
        have htail2 := ih (i + 1) none (some e2) (by omega) (by omega)
          (fun j hj1 hj2 => hbefore j (by omega) hj2)
        refine ⟨htail2.1, htail2.2.1, ?_⟩
        rw [countAttempts_cons_attempt, countAttempts_cons_sleep,
          htail2.2.2]
        omega

/-- C2: `QueryTrace` stops retrying as soon as an attempt yields a clean
(no-error, non-retry-hinted) response: with retryable outcomes before
attempt index `k` and a clean response at `k`, it returns that response
with a nil error after exactly `k + 1` attempts (client.go:208-223,
169-171). -/
theorem QueryTrace_stops_on_success (c : Client)
    (stub : Nat → Except String TraceQueryResponse)
    (req : TraceQueryRequest) (k : Nat) (r : TraceQueryResponse)
    (hv : req.Validate = none) (hk : (k : Int) ≤ c.maxRetries)
    (hbefore : ∀ j, j < k → retryable (stub j))
    (hstop : stub k = Except.ok r) (hnr : r.ShouldRetry = false) :
    (c.QueryTrace stub req).resp = some r ∧
    (c.QueryTrace stub req).err = none ∧
    countAttempts (c.QueryTrace stub req).events = k + 1 := by
  simp only [Client.QueryTrace, hv]
  have h := loopFrom_stop stub c.maxRetries (buildRequest c req).url
    (buildRequest c req).content (buildRequest c req).digest k r hstop hnr
    hk ((c.maxRetries + 1).toNat) 0 none none (by omega) (by omega)
    (fun j _ hj => hbefore j hj)
  have hidx : k - 0 + 1 = k + 1 := by omega
  rw [hidx] at h
  exact h

/-- Witness for C2: retry-hinted on attempt 1, clean success on attempt 2,
default client: the attempt-2 response is returned after exactly one
retry. -/
theorem QueryTrace_stops_on_success_witness :
    (clientX.QueryTrace stubOnce reqX).resp = some cleanResp ∧
    (clientX.QueryTrace stubOnce reqX).err = none ∧
    countAttempts (clientX.QueryTrace stubOnce reqX).events = 2 :=
  QueryTrace_stops_on_success clientX stubOnce reqX 1 cleanResp rfl
    (by decide)
    (fun j hj => by
      have h0 : j = 0 := by omega
      subst h0
      exact rfl) rfl rfl

/-! ### C8: linear backoff, sleeps sit strictly between attempts -/

/-- Every sleep recorded by the loop lasts `s` seconds where the attempt
just before it has index `s - 1` and the attempt just after it has index
`s`, with `1 ≤ s ≤ maxRetries`. -/
theorem loopFrom_sleeps (stub : Nat → Except String TraceQueryResponse)
    (mr : Int) (u ct dg : String) :
    ∀ (fuel i : Nat) (r0 : Option TraceQueryResponse) (e0 : Option String),
      fuel = (mr + 1 - (i : Int)).toNat →
      ∀ (j s : Nat),
        (loopFrom stub mr u ct dg i fuel r0 e0).events[j]? =
          some (.sleep s) →
        1 ≤ s ∧ (s : Int) ≤ mr ∧ ∃ j0, j = j0 + 1 ∧
          (loopFrom stub mr u ct dg i fuel r0 e0).events[j0]? =
            some (.attempt (s - 1) u ct dg) ∧
          (loopFrom stub mr u ct dg i fuel r0 e0).events[j0 + 2]? =
            some (.attempt s u ct dg) := by
  intro fuel
  induction fuel with
  | zero =>
    intro i r0 e0 hinv j s hj
    simp [loopFrom] at hj
  | succ fuel ih =>
    intro i r0 e0 hinv j s hj
    cases hst : stub i with
    | ok r2 =>
      by_cases hr2 : r2.ShouldRetry = true
      · rw [loopFrom_succ_retry stub mr u ct dg i fuel r0 e0 r2 hst hr2]
          at hj ⊢
        by_cases hlt : (i : Int) < mr
        · rw [loopStep_lt _ _ _ _ _ _ hlt] at hj ⊢
          dsimp only at hj ⊢
          match j with
          | 0 =>
            rw [List.getElem?_cons_zero] at hj
            simp at hj
          | 1 =>
            rw [List.getElem?_cons_succ, List.getElem?_cons_zero] at hj
            simp only [Option.some.injEq, QEvent.sleep.injEq] at hj
            subst hj
            refine ⟨by omega, by omega, 0, rfl, ?_, ?_⟩
            · rw [List.getElem?_cons_zero]
              simp
            · rw [getElem?_cons_two]
              exact loopFrom_head stub mr u ct dg (i + 1) fuel (some r2)
                none (by omega)
          | j' + 2 =>
            rw [getElem?_cons_two] at hj
            obtain ⟨hs1, hs2, j0, hj0eq, ha, hb⟩ :=
              ih (i + 1) (some r2) none (by omega) j' s hj
            refine ⟨hs1, hs2, j0 + 2, by omega, ?_, ?_⟩
            · rw [getElem?_cons_two]
              exact ha
            · rw [getElem?_cons_two]
              exact hb
        · have hf0 : fuel = 0 := by omega
          subst hf0
          rw [loopStep_ge _ _ _ _ _ _ hlt] at hj
          dsimp only at hj
          rw [show (loopFrom stub mr u ct dg (i + 1) 0 (some r2)
            none).events = [] from rfl] at hj
          match j with
          | 0 => simp at hj
          | j' + 1 =>
            rw [List.getElem?_cons_succ] at hj
            simp at hj
      · have hr2f : r2.ShouldRetry = false := by
          revert hr2; cases r2.ShouldRetry <;> simp
        rw [loopFrom_succ_stop stub mr u ct dg i fuel r0 e0 r2 hst hr2f]
          at hj
        dsimp only at hj
        match j with
        | 0 => simp at hj
        | j' + 1 =>
          rw [List.getElem?_cons_succ] at hj
          simp at hj
    | error e2 =>
      rw [loopFrom_succ_error stub mr u ct dg i fuel r0 e0 e2 hst] at hj ⊢
      by_cases hlt : (i : Int) < mr
      · rw [loopStep_lt _ _ _ _ _ _ hlt] at hj ⊢
        dsimp only at hj ⊢
        match j with
        | 0 =>
          rw [List.getElem?_cons_zero] at hj
          simp at hj
        | 1 =>
          rw [List.getElem?_cons_succ, List.getElem?_cons_zero] at hj
          simp only [Option.some.injEq, QEvent.sleep.injEq] at hj
          subst hj
          refine ⟨by omega, by omega, 0, rfl, ?_, ?_⟩
          · rw [List.getElem?_cons_zero]
            simp
          · rw [getElem?_cons_two]
            exact loopFrom_head stub mr u ct dg (i + 1) fuel none (some e2)
              (by omega)
        | j' + 2 =>
          rw [getElem?_cons_two] at hj
          obtain ⟨hs1, hs2, j0, hj0eq, ha, hb⟩ :=
            ih (i + 1) none (some e2) (by omega) j' s hj
          refine ⟨hs1, hs2, j0 + 2, by omega, ?_, ?_⟩
          · rw [getElem?_cons_two]
            exact ha
          · rw [getElem?_cons_two]
            exact hb
      · have hf0 : fuel = 0 := by omega
        subst hf0
        rw [loopStep_ge _ _ _ _ _ _ hlt] at hj
        dsimp only at hj
        rw [show (loopFrom stub mr u ct dg (i + 1) 0 none
          (some e2)).events = [] from rfl] at hj
        match j with
        | 0 => simp at hj
        | j' + 1 =>
          rw [List.getElem?_cons_succ] at hj
          simp at hj

/-- C8: in any `QueryTrace` run, every sleep of `s` seconds sits exactly
between the attempt with loop index `s - 1` and the attempt with loop
index `s` (so the sleep before the k-th retry lasts k seconds), with
`1 ≤ s ≤ maxRetries`; in particular no sleep precedes the first attempt or
follows the final one (client.go:208-221). -/
theorem QueryTrace_linear_backoff (c : Client)
    (stub : Nat → Except String TraceQueryResponse)
    (req : TraceQueryRequest) (j s : Nat)
    (hj : (c.QueryTrace stub req).events[j]? = some (.sleep s)) :
    1 ≤ s ∧ (s : Int) ≤ c.maxRetries ∧ ∃ j0, j = j0 + 1 ∧
      (c.QueryTrace stub req).events[j0]? =
        some (.attempt (s - 1) (buildRequest c req).url
          (buildRequest c req).content (buildRequest c req).digest) ∧
      (c.QueryTrace stub req).events[j0 + 2]? =
        some (.attempt s (buildRequest c req).url
          (buildRequest c req).content (buildRequest c req).digest) := by
  cases hv : req.Validate with
  | some msg =>
    simp only [Client.QueryTrace, hv] at hj
    simp at hj
  | none =>
    simp only [Client.QueryTrace, hv] at hj ⊢
    exact loopFrom_sleeps stub c.maxRetries (buildRequest c req).url
      (buildRequest c req).content (buildRequest c req).digest
      ((c.maxRetries + 1).toNat) 0 none none (by omega) j s hj

/-- Witness for C8: with the default client and a constantly retry-hinted
stub, the event at index 1 is the one-second sleep between attempts 0
and 1. -/
theorem QueryTrace_linear_backoff_witness :
    (clientX.QueryTrace stubRetry reqX).events[1]? =
      some (QEvent.sleep 1) ∧
    (1 ≤ 1 ∧ ((1 : Nat) : Int) ≤ clientX.maxRetries ∧ ∃ j0, 1 = j0 + 1 ∧
      (clientX.QueryTrace stubRetry reqX).events[j0]? =
        some (QEvent.attempt 0 (buildRequest clientX reqX).url
          (buildRequest clientX reqX).content
          (buildRequest clientX reqX).digest) ∧
      (clientX.QueryTrace stubRetry reqX).events[j0 + 2]? =
        some (QEvent.attempt 1 (buildRequest clientX reqX).url
          (buildRequest clientX reqX).content
          (buildRequest clientX reqX).digest)) :=
  ⟨rfl, QueryTrace_linear_backoff clientX stubRetry reqX 1 1 rfl⟩

/-! ### C9: every attempt resends the identical request -/

/-- C9: every attempt event of a `QueryTrace` run carries exactly the URL,
serialized content and signature computed once before the retry loop,
so every retry resends the identical request (client.go:180-213). -/
theorem QueryTrace_identical_attempts (c : Client)
    (stub : Nat → Except String TraceQueryResponse)
    (req : TraceQueryRequest) (j k : Nat) (u1 c1 d1 : String)
    (hj : (c.QueryTrace stub req).events[j]? =
      some (.attempt k u1 c1 d1)) :
    u1 = (buildRequest c req).url ∧ c1 = (buildRequest c req).content ∧
      d1 = (buildRequest c req).digest := by
  cases hv : req.Validate with
  | some msg =>
    simp only [Client.QueryTrace, hv] at hj
    simp at hj
  | none =>
    simp only [Client.QueryTrace, hv] at hj
    exact loopFrom_attempt_mem stub c.maxRetries (buildRequest c req).url
      (buildRequest c req).content (buildRequest c req).digest
      ((c.maxRetries + 1).toNat) 0 none none _ (List.getElem?_mem hj)
      k u1 c1 d1 rfl

/-- Witness for C9: the first attempt of a concrete run carries the
pre-computed URL, content and signature. -/
theorem QueryTrace_identical_attempts_witness :
    (clientX.QueryTrace stubRetry reqX).events[0]? =
      some (QEvent.attempt 0 (buildRequest clientX reqX).url
        (buildRequest clientX reqX).content
        (buildRequest clientX reqX).digest) ∧
    ((buildRequest clientX reqX).url = (buildRequest clientX reqX).url ∧
      (buildRequest clientX reqX).content =
        (buildRequest clientX reqX).content ∧
      (buildRequest clientX reqX).digest =
        (buildRequest clientX reqX).digest) :=
  ⟨rfl, QueryTrace_identical_attempts clientX stubRetry reqX 0 0
    (buildRequest clientX reqX).url (buildRequest clientX reqX).content
    (buildRequest clientX reqX).digest rfl⟩

/-! ### Partial results on the signature (claim C4)

The structural clause and determinism of the `data_digest` signature are
below; the remaining clause of C4 (a one-byte change of content or secret
always changes the digest, for all inputs) is a collision property of MD5
that is neither provable nor refutable here, so no theorem stands in
for it. -/

/-- The signature is exactly base64 of the MD5 digest of the content bytes
concatenated with the secret bytes (client.go:186-189). -/
theorem dataDigest_eq (content secret : String) :
    dataDigest content secret =
      base64Encode (md5Bytes (strBytes (content ++ secret))) := rfl

/-- Determinism: the signature is a function of the pair. -/
theorem dataDigest_deterministic (c1 s1 c2 s2 : String)
    (hc : c1 = c2) (hs : s1 = s2) :
    dataDigest c1 s1 = dataDigest c2 s2 := by rw [hc, hs]

/-- Changing one byte of the content changes the digest, at a concrete
pair. -/
theorem dataDigest_content_change_example :
    dataDigest "\x7b\"order\":\"asc\"\x7d" "secret" ≠
      dataDigest "\x7b\"order\":\"asd\"\x7d" "secret" := by decide

/-- Changing one byte of the secret changes the digest, at a concrete
pair. -/
theorem dataDigest_secret_change_example :
    dataDigest "\x7b\"order\":\"asc\"\x7d" "secret" ≠
      dataDigest "\x7b\"order\":\"asc\"\x7d" "secres" := by decide
